import Mathlib

/-!
Verification of the bing-search-scraper core (`src/extractors/softblock_handler.py`,
`src/extractors/bing_parser.py`) against its natural-language specification.

Strings are modelled as `List Char`; machine floats of the backoff policy as `ℚ`;
the nondeterministic environment (network outcomes, random draws) as explicit
oracle functions; Python exceptions as `Except` values.
-/

namespace BingScraper

abbrev Html := List Char

/-- Substring containment, the semantics of Python's `hint in lower`:
`containsSub sub s` is true iff `sub` occurs contiguously inside `s`. -/
def containsSub (sub : List Char) : List Char → Bool
  | [] => sub.isEmpty
  | c :: rest => sub.isPrefixOf (c :: rest) || containsSub sub rest

/-- `SoftBlockHandler.SOFT_BLOCK_HINTS` from `softblock_handler.py`. -/
def SOFT_BLOCK_HINTS : List (List Char) :=
  [ "unusual traffic".data,
    "verify that you are a human".data,
    "detected unusual activity".data,
    "please try again later".data,
    "are you a robot".data,
    "unusual behavior from your computer".data ]

/-- `SoftBlockHandler.is_soft_blocked`: lower-case the whole markup once, then
return true as soon as one of the fixed hint phrases occurs in it. -/
def is_soft_blocked (html : Html) : Bool :=
  let lower := html.map Char.toLower
  SOFT_BLOCK_HINTS.any (fun hint => containsSub hint lower)

/-- The jitter-free component of `SoftBlockHandler.compute_backoff`:
`(backoff_factor ** (attempt - 1)) if attempt > 0 else 1.0`. -/
def backoff_base (backoff_factor : ℚ) (attempt : ℕ) : ℚ :=
  if 0 < attempt then backoff_factor ^ (attempt - 1) else 1

/-- `SoftBlockHandler.compute_backoff`, with the uniformly drawn jitter made an
explicit oracle argument: `base + jitter`. -/
def compute_backoff (backoff_factor : ℚ) (attempt : ℕ) (jitter : ℚ) : ℚ :=
  backoff_base backoff_factor attempt + jitter

lemma containsSub_iff (sub s : List Char) : containsSub sub s = true ↔ sub <:+: s := by
  induction s with
  | nil =>
    simp [containsSub, List.isEmpty_iff]
  | cons c rest ih =>
    simp only [containsSub, Bool.or_eq_true, ih, List.infix_cons_iff,
      List.isPrefixOf_iff_prefix]

/-! ## Network model: `handle_soft_block` and `_fetch_page`

Each outbound `session.get` either raises (`netError`, i.e. `requests.Timeout`
or `requests.ConnectionError`) or yields a response body.  The environment is
an oracle mapping the attempt number to that outcome. -/

inductive FetchOutcome where
  | ok (body : Html)
  | netError
deriving DecidableEq

inductive FetchErr where
  | networkError
  | softBlockUnresolved
deriving DecidableEq

/-- An attempt that leaves the recovery loop running: the request raised, or
the body it produced is still soft-blocked. -/
def blockedOutcome : FetchOutcome → Prop
  | .ok body => is_soft_blocked body = true
  | .netError => True

/-- The `while attempt < self.max_retries` loop of
`SoftBlockHandler.handle_soft_block`, entered with counter value `attempt`.
Returns the result together with the number of outbound requests issued:
each iteration increments the counter, sleeps, issues one request; a network
failure is logged and the loop continues; a non-blocked body is returned;
when the ceiling is exhausted the procedure raises (`softBlockUnresolved`,
the code's `RuntimeError`). -/
def soft_block_loop (max_retries : ℕ) (resp : ℕ → FetchOutcome) (attempt : ℕ) :
    Except FetchErr Html × ℕ :=
  if _h : attempt < max_retries then
    match resp (attempt + 1) with
    | .netError =>
        let r := soft_block_loop max_retries resp (attempt + 1)
        (r.1, r.2 + 1)
    | .ok body =>
        if is_soft_blocked body then
          let r := soft_block_loop max_retries resp (attempt + 1)
          (r.1, r.2 + 1)
        else (.ok body, 1)
  else (.error .softBlockUnresolved, 0)
termination_by max_retries - attempt
decreasing_by all_goals omega

/-- `SoftBlockHandler.handle_soft_block`: if markup was supplied and is not
soft-blocked, return it immediately (zero further requests); otherwise run the
retry loop from counter 0. -/
def handle_soft_block (max_retries : ℕ) (resp : ℕ → FetchOutcome)
    (original_html : Option Html) : Except FetchErr Html × ℕ :=
  match original_html with
  | some h => if is_soft_blocked h then soft_block_loop max_retries resp 0 else (.ok h, 0)
  | none => soft_block_loop max_retries resp 0

/-- `DEFAULT_USER_AGENTS` from `bing_parser.py`. -/
def DEFAULT_USER_AGENTS : List Html :=
  [ ("Mozilla/5.0 (Windows NT 10.0; Win64; x64) "
      ++ "AppleWebKit/537.36 (KHTML, like Gecko) "
      ++ "Chrome/123.0 Safari/537.36").data,
    ("Mozilla/5.0 (Macintosh; Intel Mac OS X 10_15_7) "
      ++ "AppleWebKit/605.1.15 (KHTML, like Gecko) "
      ++ "Version/17.0 Safari/605.1.15").data,
    ("Mozilla/5.0 (X11; Linux x86_64) "
      ++ "AppleWebKit/537.36 (KHTML, like Gecko) "
      ++ "Chrome/122.0 Safari/537.36").data ]

/-- The `while True` loop of `BingSearchScraper._fetch_page`, entered with
counter value `attempt` and the headers built before the loop (user-agent
`ua`).  `resp` gives the outcome of the main loop's requests, `rec` the
outcome of the requests issued inside `handle_soft_block` if recovery is
entered.  Returns the result together with the user-agent carried by each
outbound attempt of this loop, in order. -/
def fetch_loop (max_retries : ℕ) (ua : Html) (resp rec : ℕ → FetchOutcome)
    (attempt : ℕ) : Except FetchErr Html × List Html :=
  match resp (attempt + 1) with
  | .netError =>
      if _h : attempt + 1 ≥ max_retries then (.error .networkError, [ua])
      else
        let r := fetch_loop max_retries ua resp rec (attempt + 1)
        (r.1, ua :: r.2)
  | .ok body =>
      if is_soft_blocked body then
        ((handle_soft_block max_retries rec (some body)).1, [ua])
      else (.ok body, [ua])
termination_by max_retries - attempt
decreasing_by all_goals omega

/-- `BingSearchScraper._fetch_page`: the headers dict is built once, before the
loop, with `random.choice(DEFAULT_USER_AGENTS)`; `uaDraw i` models the i-th
value the pseudo-random source would produce for a user-agent choice. -/
def fetch_page (max_retries : ℕ) (uaDraw : ℕ → ℕ) (resp rec : ℕ → FetchOutcome) :
    Except FetchErr Html × List Html :=
  let ua := DEFAULT_USER_AGENTS.getD (uaDraw 0 % DEFAULT_USER_AGENTS.length) []
  fetch_loop max_retries ua resp rec 0

/-! ## URL construction: `_build_search_url` and `urllib.parse.urlencode` -/

/-- Decimal representation, the semantics of Python's `str` on a
non-negative integer. -/
def natStr (n : ℕ) : List Char := (Nat.repr n).data

/-- UTF-8 encoding of one code point, as the byte values Python percent-encodes. -/
def utf8Bytes (c : Char) : List ℕ :=
  let n := c.toNat
  if n < 0x80 then [n]
  else if n < 0x800 then [0xC0 + n / 64, 0x80 + n % 64]
  else if n < 0x10000 then
    [0xE0 + n / 4096, 0x80 + n / 64 % 64, 0x80 + n % 64]
  else
    [0xF0 + n / 262144, 0x80 + n / 4096 % 64, 0x80 + n / 64 % 64, 0x80 + n % 64]

/-- Upper-case hexadecimal digit, as used by `urllib.parse.quote`. -/
def hexDigit (n : ℕ) : Char := if n < 10 then Char.ofNat (48 + n) else Char.ofNat (55 + n)

/-- `%XX` escape of one byte. -/
def percentByte (b : ℕ) : List Char := ['%', hexDigit (b / 16), hexDigit (b % 16)]

/-- A character `urllib.parse.quote` never escapes (with the default empty
`safe` set of `quote_plus`): ASCII letters, digits, and `_.-~`. -/
def alwaysSafe (c : Char) : Bool :=
  c.isAlphanum || c = '_' || c = '.' || c = '-' || c = '~'

/-- `urllib.parse.quote_plus` with its defaults, as `urlencode` applies it to
every key and value: a space becomes `+`, safe characters pass through, and
every other character is replaced by the `%XX` escapes of its UTF-8 bytes. -/
def quote_plus (s : List Char) : List Char :=
  s.flatMap fun c =>
    if c = ' ' then ['+']
    else if alwaysSafe c then [c]
    else (utf8Bytes c).flatMap percentByte

/-- `urllib.parse.urlencode` on an ordered parameter list:
`k₁=v₁&k₂=v₂&...` with `quote_plus` applied to each key and value. -/
def urlencode (params : List (List Char × List Char)) : List Char :=
  List.intercalate ['&'] (params.map (fun p => quote_plus p.1 ++ '=' :: quote_plus p.2))

/-- `BingSearchScraper.BASE_URL`. -/
def BASE_URL : List Char := "https://www.bing.com/search".data

/-- `BingSearchScraper._build_search_url`: pagination offset
`first = (page - 1) * results_per_page + 1`, then `BASE_URL?urlencode(params)`
with the parameters in the source's dict order. -/
def build_search_url (term : Html) (page results_per_page : ℕ)
    (market_code language_code : Html) : List Char :=
  let first := (page - 1) * results_per_page + 1
  BASE_URL ++ '?' :: urlencode
    [ ("q".data, term),
      ("mkt".data, market_code),
      ("setLang".data, language_code),
      ("count".data, natStr results_per_page),
      ("first".data, natStr first) ]

/-- Modelled from the spec: the target-locator template of §6,
`{searchBaseUrl}?q={term}&mkt={marketCode}&setLang={languageCode}&count={resultsPerPage}&first={(page-1)*resultsPerPage+1}`
with standard URL query-encoding applied to every parameter value. -/
def spec_target_locator (term : Html) (page results_per_page : ℕ)
    (market_code language_code : Html) : List Char :=
  "https://www.bing.com/search?q=".data ++ quote_plus term
    ++ "&mkt=".data ++ quote_plus market_code
    ++ "&setLang=".data ++ quote_plus language_code
    ++ "&count=".data ++ quote_plus (natStr results_per_page)
    ++ "&first=".data ++ quote_plus (natStr ((page - 1) * results_per_page + 1))

/-! ## DOM model

`BeautifulSoup(html, "lxml")` is an external collaborator; its output is
modelled as a tree of elements (tag, `id` attribute, class list, other
attributes, children) and text nodes, and the lookups the extractor performs
(`find`, `find_all`, `select`, `select_one`, `get_text`, `get`) are defined
over that tree in document (pre-)order. -/

inductive Node where
  | txt (s : List Char)
  | elem (tag : List Char) (idAttr : Option (List Char)) (classes : List (List Char))
      (attrs : List (List Char × List Char)) (children : List Node)

def tagIs (t : List Char) : Node → Bool
  | .txt _ => false
  | .elem tag _ _ _ _ => tag == t

def idIs (i : List Char) : Node → Bool
  | .txt _ => false
  | .elem _ idAttr _ _ _ => idAttr == some i

def hasClass (c : List Char) : Node → Bool
  | .txt _ => false
  | .elem _ _ classes _ _ => classes.contains c

/-- `el.get(name)`: the attribute's value if present. -/
def attrOf (name : List Char) : Node → Option (List Char)
  | .txt _ => none
  | .elem _ _ _ attrs _ => (attrs.find? (fun p => p.1 == name)).map (·.2)

mutual

/-- Element nodes of the subtree rooted at `n` (including `n`), in document
order, each paired with its ancestor chain (outermost first) relative to the
traversal root. -/
def elemsWithAnc (anc : List Node) (n : Node) : List (List Node × Node) :=
  match n with
  | .txt _ => []
  | .elem _ _ _ _ children => (anc, n) :: elemsListWithAnc (anc ++ [n]) children

def elemsListWithAnc (anc : List Node) : List Node → List (List Node × Node)
  | [] => []
  | n :: rest => elemsWithAnc anc n ++ elemsListWithAnc anc rest

end

/-- Document-order element descendants of `n`, excluding `n` itself. -/
def descElems (n : Node) : List Node :=
  match n with
  | .txt _ => []
  | .elem _ _ _ _ children => (elemsListWithAnc [] children).map (·.2)

/-- `el.find(tag)`: first element descendant with the tag. -/
def findTag (t : List Char) (n : Node) : Option Node := (descElems n).find? (tagIs t)

/-- `el.find_all(tag)`: all element descendants with the tag, document order. -/
def findAllTag (t : List Char) (n : Node) : List Node := (descElems n).filter (tagIs t)

/-- Does the predicate chain embed, in order, into the ancestor list
(outermost first)?  This is the CSS descendant combinator. -/
def predsSub : List (Node → Bool) → List Node → Bool
  | [], _ => true
  | _ :: _, [] => false
  | p :: ps, a :: rest => (p a && predsSub ps rest) || predsSub (p :: ps) rest

/-- `el.select(...)` for a union of selectors: each selector is a chain of
ancestor predicates plus a predicate on the matched element itself; matches
are the element descendants of `el`, in document order. -/
def cssSelectIn (sels : List (List (Node → Bool) × (Node → Bool))) (n : Node) :
    List Node :=
  match n with
  | .txt _ => []
  | .elem _ _ _ _ children =>
      (elemsListWithAnc [] children).filterMap fun p =>
        if sels.any (fun s => s.2 p.2 && predsSub s.1 p.1) then some p.2 else none

/-- Python `str.strip()` (ASCII whitespace). -/
def stripChars (s : List Char) : List Char :=
  ((s.dropWhile Char.isWhitespace).reverse.dropWhile Char.isWhitespace).reverse

mutual

def textFragments (n : Node) : List (List Char) :=
  match n with
  | .txt s => [s]
  | .elem _ _ _ _ children => textFragmentsList children

def textFragmentsList : List Node → List (List Char)
  | [] => []
  | n :: rest => textFragments n ++ textFragmentsList rest

end

/-- `el.get_text(sep, strip=True)`: strip each descendant text fragment, drop
the ones that become empty, join the rest with `sep`. -/
def get_text (sep : List Char) (n : Node) : List Char :=
  List.intercalate sep (((textFragments n).map stripChars).filter (fun s => !s.isEmpty))

/-! ## Record extractor (`BingSearchScraper._parse_page` and helpers) -/

structure OrganicItem where
  iconUrl : Option Html
  displayedUrl : Html
  title : Html
  url : Html
  description : Html
  emphasizedKeywords : List Html
  type : Html
  position : ℕ
deriving DecidableEq

structure PaidItem where
  title : Html
  url : Html
  displayedUrl : Html
  description : Html
  type : Html
  position : ℕ
deriving DecidableEq

structure QAItem where
  url : Option Html
  question : Html
  answer : Option Html
deriving DecidableEq

structure RelatedItem where
  title : Html
  url : Option Html
deriving DecidableEq

structure SearchQueryMeta where
  term : Html
  resultsPerPage : ℕ
  page : ℕ
  url : Html
  marketCode : Html
  languageCode : Html
deriving DecidableEq

structure PageRecord where
  searchQuery : SearchQueryMeta
  html : Option Html
  htmlSnapshotUrl : Option Html
  resultsTotal : Option ℕ
  organicResults : List OrganicItem
  paidResults : List PaidItem
  peopleAlsoAsk : List QAItem
  relatedQueries : List RelatedItem
deriving DecidableEq

/-- `soup.select_one("#b_tween .sb_count")`. -/
def sb_count_el (soup : Node) : Option Node :=
  (cssSelectIn [([idIs "b_tween".data], hasClass "sb_count".data)] soup).head?

/-- `BingSearchScraper._extract_results_total`: absent if the count region is
missing, has no stripped text, or its text holds no digit; otherwise the
integer formed by the digit characters of the region's text. -/
def extract_results_total (soup : Node) : Option ℕ :=
  match sb_count_el soup with
  | none => none
  | some count_el =>
    if (get_text [] count_el).isEmpty then none
    else
      let text := get_text [' '] count_el
      let digits := text.filter Char.isDigit
      if digits.isEmpty then none
      else some (digits.foldl (fun acc c => 10 * acc + (c.toNat - 48)) 0)

/-- `soup.select("#b_results li.b_algo")`. -/
def organic_listings (soup : Node) : List Node :=
  cssSelectIn
    [([idIs "b_results".data], fun n => tagIs "li".data n && hasClass "b_algo".data n)]
    soup

/-- `soup.select("#b_results li.b_ad, #b_results li.b_adresult")`. -/
def paid_listings (soup : Node) : List Node :=
  cssSelectIn
    [([idIs "b_results".data], fun n => tagIs "li".data n && hasClass "b_ad".data n),
     ([idIs "b_results".data], fun n => tagIs "li".data n && hasClass "b_adresult".data n)]
    soup

/-- `title_el = li.find("h2"); link = title_el.find("a") if title_el else None`,
the first two lines of both the organic and the paid loop body. -/
def heading_link (li : Node) : Option Node :=
  match findTag "h2".data li with
  | some title_el => findTag "a".data title_el
  | none => none

/-- The title/link requirement shared by the organic and paid loops: the
heading link must exist and its `href` must be present and non-empty
(`if not link or not link.get("href"): continue`). -/
def listingPasses (li : Node) : Bool :=
  match heading_link li with
  | none => false
  | some link =>
    match attrOf "href".data link with
    | none => false
    | some href => !href.isEmpty

/-- The body of the organic loop for one listing node, at the position the
node would receive if it qualifies; `none` when the node is skipped. -/
def organicItemAt (li : Node) (position : ℕ) : Option OrganicItem :=
  match heading_link li with
  | none => none
  | some link =>
    match attrOf "href".data link with
    | none => none
    | some url =>
      if url.isEmpty then none
      else
        let title := get_text [] link
        let description := match findTag "p".data li with
          | some desc_el => get_text [' '] desc_el
          | none => []
        let displayed_url := match (cssSelectIn
            [([fun n => tagIs "div".data n && hasClass "b_attribution".data n],
              tagIs "cite".data)] li).head? with
          | some display_url_el => get_text [] display_url_el
          | none => url
        let icon_url := match (cssSelectIn
            [([], fun n => tagIs "img".data n && hasClass "favicon".data n),
             ([], fun n => tagIs "img".data n && hasClass "b_primicon".data n)] li).head? with
          | some icon_el =>
            match attrOf "src".data icon_el with
            | some src => if src.isEmpty then none else some src
            | none => none
          | none => none
        let kws := (findAllTag "strong".data li).foldl
          (fun acc strong =>
            let kw := get_text [] strong
            if !kw.isEmpty &&
                !((acc.map (fun k => k.map Char.toLower)).contains (kw.map Char.toLower))
            then acc ++ [kw] else acc) []
        some { iconUrl := icon_url, displayedUrl := displayed_url, title := title,
               url := url, description := description, emphasizedKeywords := kws,
               type := "organic".data, position := position }

/-- The organic loop: `position` starts at 0 and is incremented only for
nodes that pass the title/link requirement. -/
def organic_from (position : ℕ) : List Node → List OrganicItem
  | [] => []
  | li :: rest =>
    match organicItemAt li (position + 1) with
    | none => organic_from position rest
    | some item => item :: organic_from (position + 1) rest

/-- `BingSearchScraper._extract_organic_results`. -/
def extract_organic_results (soup : Node) : List OrganicItem :=
  organic_from 0 (organic_listings soup)

/-- The body of the paid loop for one listing node. -/
def paidItemAt (li : Node) (position : ℕ) : Option PaidItem :=
  match heading_link li with
  | none => none
  | some link =>
    match attrOf "href".data link with
    | none => none
    | some url =>
      if url.isEmpty then none
      else
        let title := get_text [] link
        let description := match findTag "p".data li with
          | some desc_el => get_text [' '] desc_el
          | none => []
        let displayed_url := match (cssSelectIn
            [([fun n => tagIs "div".data n && hasClass "b_adurl".data n],
              tagIs "cite".data),
             ([fun n => tagIs "div".data n && hasClass "b_attribution".data n],
              tagIs "cite".data)] li).head? with
          | some display_url_el => get_text [] display_url_el
          | none => url
        some { title := title, url := url, displayedUrl := displayed_url,
               description := description, type := "ad".data, position := position }

/-- The paid loop, numbered independently of the organic loop. -/
def paid_from (position : ℕ) : List Node → List PaidItem
  | [] => []
  | li :: rest =>
    match paidItemAt li (position + 1) with
    | none => paid_from position rest
    | some item => item :: paid_from (position + 1) rest

/-- `BingSearchScraper._extract_paid_results`. -/
def extract_paid_results (soup : Node) : List PaidItem :=
  paid_from 0 (paid_listings soup)

/-- The body of the PAA loop for one `#b_context .b_expando` block:
requires a `div.b_qa` child region and non-empty question text. -/
def qaOfBlock (block : Node) : Option QAItem :=
  match (descElems block).find?
      (fun n => tagIs "div".data n && hasClass "b_qa".data n) with
  | none => none
  | some question_el =>
    let question_text := match (descElems question_el).find?
        (fun n => tagIs "div".data n && hasClass "b_q".data n) with
      | some q_el => get_text [' '] q_el
      | none => []
    let answer_text := match (descElems question_el).find?
        (fun n => tagIs "div".data n && hasClass "b_a".data n) with
      | some a_el => get_text [' '] a_el
      | none => []
    let url := match (descElems question_el).find?
        (fun n => tagIs "a".data n && (attrOf "href".data n).isSome) with
      | some link => attrOf "href".data link
      | none => none
    if question_text.isEmpty then none
    else some { url := url, question := question_text,
                answer := if answer_text.isEmpty then none else some answer_text }

/-- `BingSearchScraper._extract_people_also_ask`. -/
def extract_people_also_ask (soup : Node) : List QAItem :=
  (cssSelectIn [([idIs "b_context".data], hasClass "b_expando".data)] soup).filterMap
    qaOfBlock

/-- `BingSearchScraper._extract_related_queries`: supports the container shape
(`#b_context .b_rs`, taking its `li` descendants) and the flat list-item shape
(`#b_context .b_rs ul li`); each item needs a link with an `href` and
non-empty visible text. -/
def extract_related_queries (soup : Node) : List RelatedItem :=
  let related_section := cssSelectIn
    [([idIs "b_context".data], hasClass "b_rs".data),
     ([idIs "b_context".data, hasClass "b_rs".data, tagIs "ul".data], tagIs "li".data)]
    soup
  match related_section with
  | [] => []
  | first :: _ =>
    let li_items := if hasClass "b_rs".data first
      then cssSelectIn [([], tagIs "li".data)] first
      else related_section
    li_items.filterMap fun li =>
      match (descElems li).find?
          (fun n => tagIs "a".data n && (attrOf "href".data n).isSome) with
      | none => none
      | some link =>
        let title := get_text [' '] link
        let url := attrOf "href".data link
        if title.isEmpty then none else some { title := title, url := url }

/-- `BingSearchScraper._parse_page`: `parseHtml` models the external
`BeautifulSoup(html, "lxml")` call. -/
def parse_page (parseHtml : Html → Node) (include_html : Bool) (html : Html)
    (meta : SearchQueryMeta) : PageRecord :=
  let soup := parseHtml html
  { searchQuery := meta,
    html := if include_html then some html else none,
    htmlSnapshotUrl := none,
    resultsTotal := extract_results_total soup,
    organicResults := extract_organic_results soup,
    paidResults := extract_paid_results soup,
    peopleAlsoAsk := extract_people_also_ask soup,
    relatedQueries := extract_related_queries soup }

/-! ## Query orchestrator (`BingSearchScraper.search`) -/

/-- The page loop of `BingSearchScraper.search` from index `page` on:
build the url and metadata, fetch (a fetch failure propagates, discarding all
records of the query), parse, append, continue with the next page. -/
def search_from (parseHtml : Html → Node) (include_html : Bool)
    (fetch : ℕ → Except FetchErr Html) (term : Html) (rp : ℕ) (mkt lang : Html)
    (pages page : ℕ) : Except FetchErr (List PageRecord) :=
  if _h : page > pages then .ok []
  else
    let url := build_search_url term page rp mkt lang
    let meta : SearchQueryMeta :=
      { term := term, resultsPerPage := rp, page := page, url := url,
        marketCode := mkt, languageCode := lang }
    match fetch page with
    | .error e => .error e
    | .ok html =>
      match search_from parseHtml include_html fetch term rp mkt lang pages (page + 1) with
      | .error e => .error e
      | .ok rest => .ok (parse_page parseHtml include_html html meta :: rest)
termination_by pages + 1 - page
decreasing_by all_goals omega

/-- `BingSearchScraper.search` for one term: pages 1..pages in order. -/
def search (parseHtml : Html → Node) (include_html : Bool)
    (fetch : ℕ → Except FetchErr Html) (term : Html) (rp : ℕ) (mkt lang : Html)
    (pages : ℕ) : Except FetchErr (List PageRecord) :=
  search_from parseHtml include_html fetch term rp mkt lang pages 1

/-! ## Claims -/

/-- C1: for every markup text containing no block-indicator phrase (compared
case-insensitively, i.e. no hint occurs in the lower-cased markup),
`is_soft_blocked` returns false, and for every markup containing at least one
of the fixed phrases in any letter case (a substring whose lower-casing is a
hint), it returns true. -/
theorem c1_isBlocked_characterisation (html : Html) :
    (is_soft_blocked html = true ↔
      ∃ hint ∈ SOFT_BLOCK_HINTS, hint <:+: html.map Char.toLower)
    ∧ (∀ v, v <:+: html → v.map Char.toLower ∈ SOFT_BLOCK_HINTS →
        is_soft_blocked html = true) := by
  constructor
  · simp only [is_soft_blocked, List.any_eq_true, containsSub_iff]
  · intro v hv hmem
    have hlow : v.map Char.toLower <:+: html.map Char.toLower := hv.map Char.toLower
    simp only [is_soft_blocked, List.any_eq_true, containsSub_iff]
    exact ⟨_, hmem, hlow⟩

/-- C1 witness: a mixed-case occurrence of a hint is detected, and a
hint-free markup is not. -/
theorem c1_witness :
    is_soft_blocked "Are You A Robot".data = true
      ∧ is_soft_blocked "all fine here".data = false := by
  constructor
  · exact (c1_isBlocked_characterisation "Are You A Robot".data).2
      "Are You A Robot".data (List.infix_refl _) (by decide)
  · by_contra h
    have hx := (c1_isBlocked_characterisation "all fine here".data).1.mp
      (by revert h; cases hb : is_soft_blocked "all fine here".data <;> simp)
    revert hx; decide

/-- C5: with backoff factor 3/2 and jitter drawn from [0, 1/2),
`compute_backoff` at attempt 1 lies in [1, 3/2); and the jitter-free
component `backoff_base` is strictly increasing between any two positive
attempts. -/
theorem c5_backoff_bounds (j : ℚ) (h0 : 0 ≤ j) (h1 : j < 1/2) (m n : ℕ)
    (hm : 0 < m) (hmn : m < n) :
    (1 ≤ compute_backoff (3/2) 1 j ∧ compute_backoff (3/2) 1 j < 3/2)
    ∧ backoff_base (3/2) m < backoff_base (3/2) n := by
  refine ⟨⟨?_, ?_⟩, ?_⟩
  · simp only [compute_backoff, backoff_base, if_pos Nat.one_pos]
    norm_num
    linarith
  · simp only [compute_backoff, backoff_base, if_pos Nat.one_pos]
    norm_num
    linarith
  · simp only [backoff_base, if_pos hm, if_pos (show 0 < n by omega)]
    exact pow_lt_pow_right₀ (by norm_num) (by omega)

/-- C5 witness at jitter 1/4, attempts 1 < 2. -/
theorem c5_witness :
    (1 ≤ compute_backoff (3/2) 1 (1/4) ∧ compute_backoff (3/2) 1 (1/4) < 3/2)
    ∧ backoff_base (3/2) 1 < backoff_base (3/2) 2 :=
  c5_backoff_bounds (1/4) (by norm_num) (by norm_num) 1 2 Nat.one_pos Nat.one_lt_two

/-! ### One-step unfolding of the recovery loop -/

lemma soft_block_loop_stop (m : ℕ) (resp : ℕ → FetchOutcome) (a : ℕ) (h : ¬ a < m) :
    soft_block_loop m resp a = (.error .softBlockUnresolved, 0) := by
  conv_lhs => rw [soft_block_loop.eq_def]
  rw [dif_neg h]

lemma soft_block_loop_net (m : ℕ) (resp : ℕ → FetchOutcome) (a : ℕ) (h : a < m)
    (hr : resp (a + 1) = .netError) :
    soft_block_loop m resp a =
      ((soft_block_loop m resp (a + 1)).1, (soft_block_loop m resp (a + 1)).2 + 1) := by
  conv_lhs => rw [soft_block_loop.eq_def]
  rw [dif_pos h, hr]

lemma soft_block_loop_blocked_step (m : ℕ) (resp : ℕ → FetchOutcome) (a : ℕ)
    (body : Html) (h : a < m) (hr : resp (a + 1) = .ok body)
    (hb : is_soft_blocked body = true) :
    soft_block_loop m resp a =
      ((soft_block_loop m resp (a + 1)).1, (soft_block_loop m resp (a + 1)).2 + 1) := by
  conv_lhs => rw [soft_block_loop.eq_def]
  rw [dif_pos h, hr]
  simp [hb]

lemma soft_block_loop_ok (m : ℕ) (resp : ℕ → FetchOutcome) (a : ℕ) (body : Html)
    (h : a < m) (hr : resp (a + 1) = .ok body) (hb : is_soft_blocked body = false) :
    soft_block_loop m resp a = (.ok body, 1) := by
  conv_lhs => rw [soft_block_loop.eq_def]
  rw [dif_pos h, hr]
  simp [hb]

lemma soft_block_loop_exhaust (m : ℕ) (resp : ℕ → FetchOutcome)
    (hresp : ∀ b, 1 ≤ b → b ≤ m → blockedOutcome (resp b)) :
    ∀ k a, m - a ≤ k → (soft_block_loop m resp a).1 = .error .softBlockUnresolved := by
  intro k
  induction k with
  | zero =>
    intro a ha
    rw [soft_block_loop_stop m resp a (by omega)]
  | succ k ih =>
    intro a _
    by_cases h : a < m
    · have hb := hresp (a + 1) (by omega) (by omega)
      cases hrc : resp (a + 1) with
      | netError =>
        rw [soft_block_loop_net m resp a h hrc]
        exact ih (a + 1) (by omega)
      | ok body =>
        rw [hrc] at hb
        have hbb : is_soft_blocked body = true := hb
        rw [soft_block_loop_blocked_step m resp a body h hrc hbb]
        exact ih (a + 1) (by omega)
    · rw [soft_block_loop_stop m resp a h]

lemma soft_block_loop_first_ok (m : ℕ) (resp : ℕ → FetchOutcome) (a : ℕ) (body : Html) :
    ∀ k s, a - s ≤ k → s < a → a ≤ m → resp a = .ok body →
      is_soft_blocked body = false →
      (∀ b, s < b → b < a → blockedOutcome (resp b)) →
      (soft_block_loop m resp s).1 = .ok body := by
  intro k
  induction k with
  | zero => intro s hk hs _ _ _ _; omega
  | succ k ih =>
    intro s _ hs ham hra hnb hblk
    by_cases heq : s + 1 = a
    · rw [soft_block_loop_ok m resp s body (by omega) (heq ▸ hra) hnb]
    · have hlt : s + 1 < a := by omega
      have hb := hblk (s + 1) (by omega) hlt
      cases hrc : resp (s + 1) with
      | netError =>
        rw [soft_block_loop_net m resp s (by omega) hrc]
        exact ih (s + 1) (by omega) hlt ham hra hnb
          (fun b h1 h2 => hblk b (by omega) h2)
      | ok b' =>
        rw [hrc] at hb
        have hbb : is_soft_blocked b' = true := hb
        rw [soft_block_loop_blocked_step m resp s b' (by omega) hrc hbb]
        exact ih (s + 1) (by omega) hlt ham hra hnb
          (fun b h1 h2 => hblk b (by omega) h2)

/-- C2: whenever the supplied markup is absent or blocked and every recovery
attempt up to the retry ceiling yields a blocked body or a network failure,
`handle_soft_block` fails with the unresolved-soft-block error; and a network
failure during an attempt consumes exactly one retry (one request) and leaves
the loop to continue, never aborting it early. -/
theorem c2_retry_exhaustion (m : ℕ) (resp : ℕ → FetchOutcome) (orig : Option Html)
    (horig : ∀ h, orig = some h → is_soft_blocked h = true)
    (hresp : ∀ a, 1 ≤ a → a ≤ m → blockedOutcome (resp a)) :
    (handle_soft_block m resp orig).1 = .error .softBlockUnresolved
    ∧ (∀ a, a < m → resp (a + 1) = .netError →
        (soft_block_loop m resp a).1 = (soft_block_loop m resp (a + 1)).1
        ∧ (soft_block_loop m resp a).2 = (soft_block_loop m resp (a + 1)).2 + 1) := by
  constructor
  · have hloop := soft_block_loop_exhaust m resp hresp m 0 (by omega)
    cases orig with
    | none => exact hloop
    | some h =>
      have hb := horig h rfl
      simpa [handle_soft_block, hb] using hloop
  · intro a ha hr
    rw [soft_block_loop_net m resp a ha hr]
    exact ⟨rfl, rfl⟩

/-- C2 witness: retry ceiling 2, every attempt a network failure, markup
absent — the procedure fails with the unresolved-soft-block error. -/
theorem c2_witness :
    (handle_soft_block 2 (fun _ => FetchOutcome.netError) none).1
      = .error .softBlockUnresolved :=
  (c2_retry_exhaustion 2 (fun _ => FetchOutcome.netError) none
    (fun h hh => by cases hh) (fun a _ _ => trivial)).1

/-- C3: if the already-fetched markup is not blocked, `handle_soft_block`
returns it unchanged, issuing zero requests; otherwise it returns the body of
the first recovery attempt that yields a non-blocked body, when every earlier
attempt raised or stayed blocked. -/
theorem c3_first_unblocked (m : ℕ) (resp : ℕ → FetchOutcome) (orig : Option Html) :
    (∀ h, orig = some h → is_soft_blocked h = false →
        handle_soft_block m resp orig = (.ok h, 0))
    ∧ (∀ a body, (∀ b, orig = some b → is_soft_blocked b = true) →
        1 ≤ a → a ≤ m → resp a = .ok body → is_soft_blocked body = false →
        (∀ b, 1 ≤ b → b < a → blockedOutcome (resp b)) →
        (handle_soft_block m resp orig).1 = .ok body) := by
  constructor
  · intro h hh hnb
    subst hh
    simp [handle_soft_block, hnb]
  · intro a body horig h1 ham hra hnb hblk
    have hloop := soft_block_loop_first_ok m resp a body a 0 (by omega) (by omega)
      ham hra hnb (fun b hb hba => hblk b (by omega) hba)
    cases orig with
    | none => exact hloop
    | some b =>
      have hb := horig b rfl
      simpa [handle_soft_block, hb] using hloop

/-- C3 witness: blocked original markup, retry ceiling 1, attempt 1 yields a
non-blocked body, which is returned. -/
theorem c3_witness :
    (handle_soft_block 1 (fun _ => FetchOutcome.ok ['x'])
        (some "are you a robot".data)).1 = .ok ['x'] :=
  (c3_first_unblocked 1 (fun _ => FetchOutcome.ok ['x'])
      (some "are you a robot".data)).2 1 ['x']
    (fun b hb => by cases hb; decide) le_rfl le_rfl rfl (by decide)
    (fun b hb1 hb2 => absurd hb2 (by omega))

/-- C10: called with no already-fetched markup, `handle_soft_block` skips the
defensive short-circuit and behaves exactly as the backoff-and-retry loop
started at attempt counter 0; with a positive retry ceiling it always issues
at least one request — even when the very first attempt returns a non-blocked
body (so no blocked body was ever observed), that attempt still happens. -/
theorem c10_none_skips_short_circuit (m : ℕ) (resp : ℕ → FetchOutcome) :
    handle_soft_block m resp none = soft_block_loop m resp 0
    ∧ (1 ≤ m → 1 ≤ (handle_soft_block m resp none).2)
    ∧ (∀ body, resp 1 = .ok body → is_soft_blocked body = false → 1 ≤ m →
        handle_soft_block m resp none = (.ok body, 1)) := by
  refine ⟨rfl, ?_, ?_⟩
  · intro hm
    show 1 ≤ (soft_block_loop m resp 0).2
    have h0 : 0 < m := hm
    cases hrc : resp 1 with
    | netError =>
      rw [soft_block_loop_net m resp 0 h0 hrc]
      omega
    | ok body =>
      by_cases hb : is_soft_blocked body
      · rw [soft_block_loop_blocked_step m resp 0 body h0 hrc hb]
        omega
      · rw [soft_block_loop_ok m resp 0 body h0 hrc (by simpa using hb)]
  · intro body hr hb hm
    show soft_block_loop m resp 0 = (.ok body, 1)
    exact soft_block_loop_ok m resp 0 body hm hr hb

/-- C10 witness: ceiling 1, markup absent, first response already clean —
the loop is still entered and one request is issued. -/
theorem c10_witness :
    handle_soft_block 1 (fun _ => FetchOutcome.ok ['x']) none
      = (.ok ['x'], 1) :=
  (c10_none_skips_short_circuit 1 (fun _ => FetchOutcome.ok ['x'])).2.2
    ['x'] rfl (by decide) le_rfl

/-! ### One-step unfolding of the fetch retry loop -/

lemma fetch_loop_net_stop (m : ℕ) (ua : Html) (resp rec : ℕ → FetchOutcome) (a : ℕ)
    (h : a + 1 ≥ m) (hr : resp (a + 1) = .netError) :
    fetch_loop m ua resp rec a = (.error .networkError, [ua]) := by
  conv_lhs => rw [fetch_loop.eq_def]
  rw [hr, dif_pos h]

lemma fetch_loop_net_retry (m : ℕ) (ua : Html) (resp rec : ℕ → FetchOutcome) (a : ℕ)
    (h : ¬ a + 1 ≥ m) (hr : resp (a + 1) = .netError) :
    fetch_loop m ua resp rec a =
      ((fetch_loop m ua resp rec (a + 1)).1,
        ua :: (fetch_loop m ua resp rec (a + 1)).2) := by
  conv_lhs => rw [fetch_loop.eq_def]
  rw [hr, dif_neg h]

lemma fetch_loop_blocked (m : ℕ) (ua : Html) (resp rec : ℕ → FetchOutcome) (a : ℕ)
    (body : Html) (hr : resp (a + 1) = .ok body) (hb : is_soft_blocked body = true) :
    fetch_loop m ua resp rec a =
      ((handle_soft_block m rec (some body)).1, [ua]) := by
  conv_lhs => rw [fetch_loop.eq_def]
  rw [hr]
  simp [hb]

lemma fetch_loop_clean (m : ℕ) (ua : Html) (resp rec : ℕ → FetchOutcome) (a : ℕ)
    (body : Html) (hr : resp (a + 1) = .ok body) (hb : is_soft_blocked body = false) :
    fetch_loop m ua resp rec a = (.ok body, [ua]) := by
  conv_lhs => rw [fetch_loop.eq_def]
  rw [hr]
  simp [hb]

lemma fetch_page_eq (m : ℕ) (uaDraw : ℕ → ℕ) (resp rec : ℕ → FetchOutcome) :
    fetch_page m uaDraw resp rec =
      fetch_loop m (DEFAULT_USER_AGENTS.getD (uaDraw 0 % DEFAULT_USER_AGENTS.length) [])
        resp rec 0 := rfl

lemma fetch_loop_trace_const (m : ℕ) (ua : Html) (resp rec : ℕ → FetchOutcome) :
    ∀ k a, m - a ≤ k → ∀ x ∈ (fetch_loop m ua resp rec a).2, x = ua := by
  intro k
  induction k with
  | zero =>
    intro a ha x hx
    cases hrc : resp (a + 1) with
    | netError =>
      rw [fetch_loop_net_stop m ua resp rec a (by omega) hrc] at hx
      simpa using hx
    | ok body =>
      by_cases hb : is_soft_blocked body
      · rw [fetch_loop_blocked m ua resp rec a body hrc hb] at hx
        simpa using hx
      · rw [fetch_loop_clean m ua resp rec a body hrc (by simpa using hb)] at hx
        simpa using hx
  | succ k ih =>
    intro a _ x hx
    cases hrc : resp (a + 1) with
    | netError =>
      by_cases h : a + 1 ≥ m
      · rw [fetch_loop_net_stop m ua resp rec a h hrc] at hx
        simpa using hx
      · rw [fetch_loop_net_retry m ua resp rec a h hrc] at hx
        rcases List.mem_cons.mp hx with h1 | h2
        · exact h1
        · exact ih (a + 1) (by omega) x h2
    | ok body =>
      by_cases hb : is_soft_blocked body
      · rw [fetch_loop_blocked m ua resp rec a body hrc hb] at hx
        simpa using hx
      · rw [fetch_loop_clean m ua resp rec a body hrc (by simpa using hb)] at hx
        simpa using hx

/-- C4 counterexample: the claim — that in `_fetch_page`'s retry loop every
outbound attempt carries a user-agent freshly drawn for that attempt (draw i
for attempt i+1) — is false: in a run whose first attempt hits a network
failure and whose second attempt succeeds, both attempts carry the
user-agent of draw 0. -/
theorem c4_counterexample :
    ¬ (∀ (m : ℕ) (uaDraw : ℕ → ℕ) (resp rec : ℕ → FetchOutcome),
        (fetch_page m uaDraw resp rec).2 =
          (List.range (fetch_page m uaDraw resp rec).2.length).map
            (fun i => DEFAULT_USER_AGENTS.getD (uaDraw i % DEFAULT_USER_AGENTS.length) [])) := by
  intro hclaim
  have h := hclaim 3 (fun i => i)
    (fun a => if a = 1 then .netError else .ok ['z']) (fun _ => .ok ['z'])
  set ua := DEFAULT_USER_AGENTS.getD (0 % DEFAULT_USER_AGENTS.length) [] with hua
  have t1 : fetch_loop 3 ua (fun a => if a = 1 then .netError else .ok ['z'])
      (fun _ => .ok ['z']) 1 = (.ok ['z'], [ua]) :=
    fetch_loop_clean 3 ua _ _ 1 ['z'] (by norm_num) (by decide)
  have t0 : fetch_loop 3 ua (fun a => if a = 1 then .netError else .ok ['z'])
      (fun _ => .ok ['z']) 0 = (.ok ['z'], [ua, ua]) := by
    rw [fetch_loop_net_retry 3 ua _ _ 0 (by omega) (by norm_num), t1]
  rw [fetch_page_eq, ← hua, t0] at h
  simp only [List.length_cons, List.length_nil, List.range_succ, List.range_zero,
    List.map_append, List.map_cons, List.map_nil, List.nil_append,
    List.cons_append, List.cons.injEq, and_true] at h
  have hne : DEFAULT_USER_AGENTS.getD (0 % DEFAULT_USER_AGENTS.length) []
      ≠ DEFAULT_USER_AGENTS.getD (1 % DEFAULT_USER_AGENTS.length) [] := by decide
  exact hne (h.2.trans rfl ▸ h.2)

/-- C4 amended: the user-agent is drawn from the rotation pool once per
`_fetch_page` call, before the retry loop; every outbound attempt of that
call (including each retry after a network failure) carries that same
user-agent, not a fresh draw per attempt. -/
theorem c4_single_ua_draw (m : ℕ) (uaDraw : ℕ → ℕ) (resp rec : ℕ → FetchOutcome)
    (ua : Html) (hua : ua ∈ (fetch_page m uaDraw resp rec).2) :
    ua = DEFAULT_USER_AGENTS.getD (uaDraw 0 % DEFAULT_USER_AGENTS.length) [] :=
  fetch_loop_trace_const m _ resp rec m 0 (by omega) ua hua

/-- C4 witness: a one-attempt run; its only outbound attempt carries the
user-agent of draw 0. -/
theorem c4_witness :
    DEFAULT_USER_AGENTS.getD 0 [] =
      DEFAULT_USER_AGENTS.getD
        ((fun _ : ℕ => 0) 0 % DEFAULT_USER_AGENTS.length) [] :=
  c4_single_ua_draw 1 (fun _ => 0) (fun _ => FetchOutcome.ok ['z'])
    (fun _ => FetchOutcome.ok ['z']) (DEFAULT_USER_AGENTS.getD 0 [])
    (by
      rw [fetch_page_eq,
        fetch_loop_clean 1 _ _ _ 0 ['z'] rfl (by decide)]
      exact List.mem_singleton.mpr rfl)

/-! ### Position invariants of the organic and paid loops -/

lemma organicItemAt_isSome (li : Node) (p : ℕ) :
    (organicItemAt li p).isSome = listingPasses li := by
  unfold organicItemAt listingPasses
  cases heading_link li with
  | none => simp
  | some link =>
    dsimp only
    cases attrOf "href".data link with
    | none => simp
    | some url => by_cases hu : url.isEmpty <;> simp [hu]

lemma organicItemAt_position (li : Node) (p : ℕ) (item : OrganicItem)
    (h : organicItemAt li p = some item) : item.position = p := by
  unfold organicItemAt at h
  split at h
  · exact absurd h (by simp)
  · split at h
    · exact absurd h (by simp)
    · split at h
      · exact absurd h (by simp)
      · simp only [Option.some.injEq] at h
        subst h
        rfl

lemma paidItemAt_isSome (li : Node) (p : ℕ) :
    (paidItemAt li p).isSome = listingPasses li := by
  unfold paidItemAt listingPasses
  cases heading_link li with
  | none => simp
  | some link =>
    dsimp only
    cases attrOf "href".data link with
    | none => simp
    | some url => by_cases hu : url.isEmpty <;> simp [hu]

lemma paidItemAt_position (li : Node) (p : ℕ) (item : PaidItem)
    (h : paidItemAt li p = some item) : item.position = p := by
  unfold paidItemAt at h
  split at h
  · exact absurd h (by simp)
  · split at h
    · exact absurd h (by simp)
    · split at h
      · exact absurd h (by simp)
      · simp only [Option.some.injEq] at h
        subst h
        rfl

lemma organic_from_positions (ls : List Node) :
    ∀ p, (organic_from p ls).map OrganicItem.position
      = List.range' (p + 1) (organic_from p ls).length := by
  induction ls with
  | nil => intro p; rfl
  | cons li rest ih =>
    intro p
    cases hit : organicItemAt li (p + 1) with
    | none => simpa [organic_from, hit] using ih p
    | some item =>
      have hpos := organicItemAt_position li (p + 1) item hit
      simp [organic_from, hit, List.range'_succ, hpos, ih (p + 1)]

lemma organic_from_length (ls : List Node) :
    ∀ p, (organic_from p ls).length = ls.countP listingPasses := by
  induction ls with
  | nil => intro p; rfl
  | cons li rest ih =>
    intro p
    cases hit : organicItemAt li (p + 1) with
    | none =>
      have hpass : listingPasses li = false := by
        rw [← organicItemAt_isSome li (p + 1), hit]
        rfl
      simp [organic_from, hit, List.countP_cons, hpass, ih p]
    | some item =>
      have hpass : listingPasses li = true := by
        rw [← organicItemAt_isSome li (p + 1), hit]
        rfl
      simp [organic_from, hit, List.countP_cons, hpass, ih (p + 1)]

lemma paid_from_positions (ls : List Node) :
    ∀ p, (paid_from p ls).map PaidItem.position
      = List.range' (p + 1) (paid_from p ls).length := by
  induction ls with
  | nil => intro p; rfl
  | cons li rest ih =>
    intro p
    cases hit : paidItemAt li (p + 1) with
    | none => simpa [paid_from, hit] using ih p
    | some item =>
      have hpos := paidItemAt_position li (p + 1) item hit
      simp [paid_from, hit, List.range'_succ, hpos, ih (p + 1)]

lemma paid_from_length (ls : List Node) :
    ∀ p, (paid_from p ls).length = ls.countP listingPasses := by
  induction ls with
  | nil => intro p; rfl
  | cons li rest ih =>
    intro p
    cases hit : paidItemAt li (p + 1) with
    | none =>
      have hpass : listingPasses li = false := by
        rw [← paidItemAt_isSome li (p + 1), hit]
        rfl
      simp [paid_from, hit, List.countP_cons, hpass, ih p]
    | some item =>
      have hpass : listingPasses li = true := by
        rw [← paidItemAt_isSome li (p + 1), hit]
        rfl
      simp [paid_from, hit, List.countP_cons, hpass, ih (p + 1)]

/-- C7: the position fields of the extracted organic items are exactly
1, 2, ..., n in list order, where n counts exactly the listing nodes passing
the title/link requirement (a skipped node consumes no position), and the
same holds for the paid items, numbered independently over their own
listing nodes. -/
theorem c7_positions_contiguous (soup : Node) :
    ((extract_organic_results soup).map OrganicItem.position
        = List.range' 1 (extract_organic_results soup).length)
    ∧ ((extract_organic_results soup).length
        = (organic_listings soup).countP listingPasses)
    ∧ ((extract_paid_results soup).map PaidItem.position
        = List.range' 1 (extract_paid_results soup).length)
    ∧ ((extract_paid_results soup).length
        = (paid_listings soup).countP listingPasses) :=
  ⟨organic_from_positions (organic_listings soup) 0,
   organic_from_length (organic_listings soup) 0,
   paid_from_positions (paid_listings soup) 0,
   paid_from_length (paid_listings soup) 0⟩

/-- C6: `extract` is a total function of the parsed markup — and when the
results-total sub-extraction comes up empty (count region absent, or its text
holding no digit), only that field defaults to absent while every other field
of the PageRecord is still produced from its own sub-extraction. -/
theorem c6_field_failure_is_local (parseHtml : Html → Node) (include_html : Bool)
    (html : Html) (meta : SearchQueryMeta)
    (hfail : ∀ el, sb_count_el (parseHtml html) = some el →
        (get_text [' '] el).filter Char.isDigit = []) :
    parse_page parseHtml include_html html meta =
      { searchQuery := meta,
        html := if include_html then some html else none,
        htmlSnapshotUrl := none,
        resultsTotal := none,
        organicResults := extract_organic_results (parseHtml html),
        paidResults := extract_paid_results (parseHtml html),
        peopleAlsoAsk := extract_people_also_ask (parseHtml html),
        relatedQueries := extract_related_queries (parseHtml html) } := by
  have hrt : extract_results_total (parseHtml html) = none := by
    unfold extract_results_total
    cases hsel : sb_count_el (parseHtml html) with
    | none => rfl
    | some el =>
      have hd := hfail el hsel
      dsimp only
      by_cases he : (get_text [] el).isEmpty
      · simp [he]
      · simp [he, hd]
  simp [parse_page, hrt]

/-- C6 witness: a document with no count region still yields a full record
with an absent results total. -/
theorem c6_witness :
    parse_page (fun _ => Node.elem "[document]".data none [] [] []) false []
        ⟨[], 10, 1, [], [], []⟩ =
      { searchQuery := ⟨[], 10, 1, [], [], []⟩,
        html := if false then some [] else none,
        htmlSnapshotUrl := none,
        resultsTotal := none,
        organicResults :=
          extract_organic_results (Node.elem "[document]".data none [] [] []),
        paidResults :=
          extract_paid_results (Node.elem "[document]".data none [] [] []),
        peopleAlsoAsk :=
          extract_people_also_ask (Node.elem "[document]".data none [] [] []),
        relatedQueries :=
          extract_related_queries (Node.elem "[document]".data none [] [] []) } :=
  c6_field_failure_is_local (fun _ => Node.elem "[document]".data none [] [] [])
    false [] ⟨[], 10, 1, [], [], []⟩
    (by
      intro el h
      simp [sb_count_el, cssSelectIn, elemsListWithAnc] at h)

lemma intercalate_five (sep a b c d e : List Char) :
    List.intercalate sep [a, b, c, d, e]
      = a ++ sep ++ b ++ sep ++ c ++ sep ++ d ++ sep ++ e := by
  simp [List.intercalate, List.intersperse]

/-- C8: the constructed target locator is bit-exact the spec's template —
base url, then `q`, `mkt`, `setLang`, `count`, `first` in that order, every
value query-encoded, with `first = (page-1)*resultsPerPage + 1`. -/
theorem c8_url_bit_exact (term market_code language_code : Html)
    (results_per_page page : ℕ) (hp : 1 ≤ page) :
    build_search_url term page results_per_page market_code language_code
      = spec_target_locator term page results_per_page market_code language_code := by
  unfold build_search_url spec_target_locator urlencode
  simp only [List.map_cons, List.map_nil]
  rw [intercalate_five]
  rw [show quote_plus "q".data = "q".data from by decide,
      show quote_plus "mkt".data = "mkt".data from by decide,
      show quote_plus "setLang".data = "setLang".data from by decide,
      show quote_plus "count".data = "count".data from by decide,
      show quote_plus "first".data = "first".data from by decide]
  simp [BASE_URL, List.append_assoc]

/-- C8 witness at a concrete query. -/
theorem c8_witness :
    build_search_url "lean prover".data 2 10 "en-US".data "en".data
      = spec_target_locator "lean prover".data 2 10 "en-US".data "en".data :=
  c8_url_bit_exact "lean prover".data "en-US".data "en".data 10 2 (by omega)

/-! ### One-step unfolding of the orchestrator's page loop -/

lemma search_from_stop (parseHtml : Html → Node) (include_html : Bool)
    (fetch : ℕ → Except FetchErr Html) (term : Html) (rp : ℕ) (mkt lang : Html)
    (pages page : ℕ) (h : page > pages) :
    search_from parseHtml include_html fetch term rp mkt lang pages page = .ok [] := by
  conv_lhs => rw [search_from.eq_def]
  rw [dif_pos h]

lemma search_from_error_step (parseHtml : Html → Node) (include_html : Bool)
    (fetch : ℕ → Except FetchErr Html) (term : Html) (rp : ℕ) (mkt lang : Html)
    (pages page : ℕ) (h : ¬ page > pages) (e : FetchErr) (he : fetch page = .error e) :
    search_from parseHtml include_html fetch term rp mkt lang pages page = .error e := by
  conv_lhs => rw [search_from.eq_def]
  rw [dif_neg h, he]

lemma search_from_ok_step (parseHtml : Html → Node) (include_html : Bool)
    (fetch : ℕ → Except FetchErr Html) (term : Html) (rp : ℕ) (mkt lang : Html)
    (pages page : ℕ) (h : ¬ page > pages) (body : Html) (hf : fetch page = .ok body) :
    search_from parseHtml include_html fetch term rp mkt lang pages page =
      (match search_from parseHtml include_html fetch term rp mkt lang pages (page + 1) with
        | .error e => .error e
        | .ok rest => .ok (parse_page parseHtml include_html body
            ⟨term, rp, page, build_search_url term page rp mkt lang, mkt, lang⟩ :: rest)) := by
  conv_lhs => rw [search_from.eq_def]
  rw [dif_neg h, hf]

lemma search_from_all_ok (parseHtml : Html → Node) (include_html : Bool)
    (fetch : ℕ → Except FetchErr Html) (term : Html) (rp : ℕ) (mkt lang : Html)
    (pages : ℕ) (body : ℕ → Html)
    (hok : ∀ p, 1 ≤ p → p ≤ pages → fetch p = .ok (body p)) :
    ∀ k page, 1 ≤ page → pages + 1 - page ≤ k →
      search_from parseHtml include_html fetch term rp mkt lang pages page =
        .ok ((List.range' page (pages + 1 - page)).map fun p =>
          parse_page parseHtml include_html (body p)
            ⟨term, rp, p, build_search_url term p rp mkt lang, mkt, lang⟩) := by
  intro k
  induction k with
  | zero =>
    intro page h1 hk
    rw [search_from_stop parseHtml include_html fetch term rp mkt lang pages page
      (by omega)]
    rw [show pages + 1 - page = 0 by omega]
    rfl
  | succ k ih =>
    intro page h1 hk
    by_cases h : page > pages
    · rw [search_from_stop parseHtml include_html fetch term rp mkt lang pages page h]
      rw [show pages + 1 - page = 0 by omega]
      rfl
    · rw [search_from_ok_step parseHtml include_html fetch term rp mkt lang pages page
        h (body page) (hok page h1 (by omega))]
      rw [ih (page + 1) (by omega) (by omega)]
      rw [show pages + 1 - page = (pages + 1 - (page + 1)) + 1 by omega,
        List.range'_succ, List.map_cons]

lemma search_from_error_at (parseHtml : Html → Node) (include_html : Bool)
    (fetch : ℕ → Except FetchErr Html) (term : Html) (rp : ℕ) (mkt lang : Html)
    (pages p : ℕ) (e : FetchErr) (hp : p ≤ pages) (hfe : fetch p = .error e) :
    ∀ k page, pages + 1 - page ≤ k → page ≤ p →
      (∀ q, page ≤ q → q < p → ∃ b, fetch q = .ok b) →
      search_from parseHtml include_html fetch term rp mkt lang pages page = .error e := by
  intro k
  induction k with
  | zero => intro page hk hpp _; omega
  | succ k ih =>
    intro page hk hpp hearlier
    by_cases heq : page = p
    · exact search_from_error_step parseHtml include_html fetch term rp mkt lang
        pages page (by omega) e (heq ▸ hfe)
    · obtain ⟨b, hb⟩ := hearlier page le_rfl (by omega)
      rw [search_from_ok_step parseHtml include_html fetch term rp mkt lang pages page
        (by omega) b hb]
      rw [ih (page + 1) (by omega) (by omega)
        (fun q hq1 hq2 => hearlier q (by omega) hq2)]

/-- C9: with every fetch up to `pages` succeeding, `search` yields exactly one
PageRecord per page index 1..pages, in order; and if the Page Fetcher fails on
page p (all earlier pages succeeding), the failure propagates to the caller
as the result of `search`, so no PageRecord of that query is produced — not
for page p nor for any other page. -/
theorem c9_order_and_abort (parseHtml : Html → Node) (include_html : Bool)
    (fetch : ℕ → Except FetchErr Html) (term : Html) (rp : ℕ) (mkt lang : Html)
    (pages : ℕ) :
    (∀ body : ℕ → Html, (∀ p, 1 ≤ p → p ≤ pages → fetch p = .ok (body p)) →
        search parseHtml include_html fetch term rp mkt lang pages =
          .ok ((List.range' 1 pages).map fun p =>
            parse_page parseHtml include_html (body p)
              ⟨term, rp, p, build_search_url term p rp mkt lang, mkt, lang⟩))
    ∧ (∀ p e, 1 ≤ p → p ≤ pages → fetch p = .error e →
        (∀ q, 1 ≤ q → q < p → ∃ b, fetch q = .ok b) →
        search parseHtml include_html fetch term rp mkt lang pages = .error e) := by
  constructor
  · intro body hok
    have h := search_from_all_ok parseHtml include_html fetch term rp mkt lang pages
      body hok (pages + 1) 1 le_rfl (by omega)
    rw [show pages + 1 - 1 = pages by omega] at h
    exact h
  · intro p e h1 hp hfe hearlier
    exact search_from_error_at parseHtml include_html fetch term rp mkt lang pages
      p e hp hfe (pages + 1) 1 (by omega) h1
      (fun q hq1 hq2 => hearlier q hq1 hq2)

/-- C9 witness: a single-page query whose fetch fails with a network error —
`search` propagates the error and produces no record. -/
theorem c9_witness :
    search (fun _ => Node.txt []) false (fun _ => Except.error FetchErr.networkError)
        [] 10 [] [] 1 = .error .networkError :=
  (c9_order_and_abort (fun _ => Node.txt []) false
      (fun _ => Except.error FetchErr.networkError) [] 10 [] [] 1).2
    1 .networkError le_rfl le_rfl rfl
    (fun q hq1 hq2 => absurd hq2 (by omega))

end BingScraper
